import Mathlib

/-!
Shallow embedding of `src/meal_planner.py` (a Streamlit recipe/chat app)
together with the dietary-filter contracts its specification describes.

The embedded pieces are:
* Python string containment (`needle in hay`) and `str.lower()`;
* a model of Python values (`PyVal`) with Python's `str()` rendering,
  needed because the code tests membership in
  `str(details.get("extendedIngredients", "")).lower()`;
* `get_meal_ideas` (the per-recipe detail-fetch-and-filter loop plus its
  error envelope) and the caller branch that renders its result;
* `add_to_memory`, `display_memory` and the chat-context construction;
* the spec-level `DietaryFilter` contracts (`isCompliant`,
  `filterCompliant`, `pickRandomCompliant`), which exist only in the
  specification, modelled from its words.
-/

/-- Python substring test on lists of characters: `sub` occurs contiguously
inside `hay`.  Mirrors `sub in hay` for Python strings. -/
def charsContain (sub : List Char) : List Char → Bool
  | [] => sub.isEmpty
  | c :: rest => sub.isPrefixOf (c :: rest) || charsContain sub rest

/-- Python `sub in hay` for strings (substring containment). -/
def strIn (sub hay : String) : Bool :=
  charsContain sub.toList hay.toList

/-- Python `s.lower()`: lower-case every character (the payloads here are
ASCII, where `Char.toLower` agrees with Python). -/
def pyLower (s : String) : String :=
  String.mk (List.map Char.toLower s.data)

/-- Model of a Python value, as far as the recipe payloads need: strings,
integers, lists and string-keyed dicts. -/
inductive PyVal where
  | pstr (s : String)
  | pint (n : Int)
  | plist (xs : List PyVal)
  | pdict (kvs : List (String × PyVal))

/-- A Python dict with string keys, as the JSON payloads decode to. -/
abbrev PyDict := List (String × PyVal)

mutual
/-- Python `repr` of a value (strings get quoted; lists and dicts render
their elements with `repr`).  Strings are assumed to contain no quote or
backslash characters, so no escaping is modelled. -/
def pyRepr : PyVal → String
  | .pstr s => "\x27" ++ s ++ "\x27"
  | .pint n => toString n
  | .plist xs => "[" ++ pyReprList xs ++ "]"
  | .pdict kvs => "\x7b" ++ pyReprDict kvs ++ "\x7d"

/-- Comma-separated `repr`s of list elements, as inside Python `repr([...])`. -/
def pyReprList : List PyVal → String
  | [] => ""
  | [x] => pyRepr x
  | x :: y :: rest => pyRepr x ++ ", " ++ pyReprList (y :: rest)

/-- Comma-separated `key: value` pairs, as inside Python `repr` of a dict. -/
def pyReprDict : List (String × PyVal) → String
  | [] => ""
  | [kv] => "\x27" ++ kv.1 ++ "\x27: " ++ pyRepr kv.2
  | kv :: p :: rest =>
      "\x27" ++ kv.1 ++ "\x27: " ++ pyRepr kv.2 ++ ", " ++ pyReprDict (p :: rest)
end

/-- Python `str()` of a value: a string renders as itself, anything else as
its `repr`. -/
def pyStr : PyVal → String
  | .pstr s => s
  | v => pyRepr v

/-- Python `d.get(k, default)` on a string-keyed dict. -/
def dictGet (d : PyDict) (k : String) (dflt : PyVal) : PyVal :=
  match List.find? (fun kv => kv.1 == k) d with
  | some kv => kv.2
  | none => dflt

/-- Python truthiness of a dict: an empty dict is falsy. -/
def dictTruthy (d : PyDict) : Bool :=
  !(List.isEmpty d)

/-- The string the filter in `get_meal_ideas` searches:
`str(details.get("extendedIngredients", ""))`. -/
def strOfExtendedIngredients (details : PyDict) : String :=
  pyStr (dictGet details "extendedIngredients" (.pstr ""))

/-- The guard on line 86 of `meal_planner.py`:
`details and ingredients.lower() in str(details.get("extendedIngredients", "")).lower()`,
where `details` is `None` on a failed detail fetch. -/
def keepDetails (ingredients : String) (details : Option PyDict) : Bool :=
  match details with
  | none => false
  | some d =>
      dictTruthy d &&
        strIn (pyLower ingredients) (pyLower (strOfExtendedIngredients d))

/-- The loop of `get_meal_ideas` (lines 82-88): for each summary id, call
`get_recipe_details` (modelled as the function `fetch`, returning `none`
when that call failed) and append the detail record when the guard passes. -/
def detailedRecipes (fetch : Int → Option PyDict) (ingredients : String) :
    List Int → List PyDict
  | [] => []
  | rid :: rest =>
      match fetch rid with
      | none => detailedRecipes fetch ingredients rest
      | some d =>
          if keepDetails ingredients (some d) then
            d :: detailedRecipes fetch ingredients rest
          else
            detailedRecipes fetch ingredients rest

/-- Result of `get_meal_ideas`: either the error dict
`\x7b"error": str(e)\x7d` built in the `except` branch, or the list of
surviving detail records. -/
inductive MealResult where
  | apiError (msg : String)
  | recipes (rs : List PyDict)

/-- `get_meal_ideas` (lines 66-91): the search round-trip either raises
(modelled as `Except.error`, covering transport failures and non-2xx via
`raise_for_status`), in which case the error dict is returned, or yields
the summary ids, which are detail-fetched and filtered. -/
def get_meal_ideas (searchResponse : Except String (List Int))
    (fetch : Int → Option PyDict) (ingredients : String) : MealResult :=
  match searchResponse with
  | .error e => .apiError e
  | .ok ids => .recipes (detailedRecipes fetch ingredients ids)

/-- What the caller branch (lines 158-171) shows for one result. -/
structure Rendered where
  errorShown : Option String
  warningShown : Option String
  recipesShown : List PyDict
  botResponse : String

/-- The caller of `get_meal_ideas` (lines 158-166): an error dict shows an
error and an apologetic bot line with no recipes; an empty list shows a
warning; otherwise the recipes are listed. -/
def renderMealResult (mealType : String) (r : MealResult) : Rendered :=
  match r with
  | .apiError e =>
      ⟨some ("Spoonacular Error: " ++ e), none, [],
        "Sorry, I couldn\x27t fetch meal ideas right now. Try again later!"⟩
  | .recipes [] =>
      ⟨none,
        some ("No " ++ pyLower mealType ++ " meal ideas found! Try adding more ingredients."),
        [],
        "I couldn\x27t find any " ++ pyLower mealType ++
          " meal ideas based on those ingredients."⟩
  | .recipes rs =>
      ⟨none, none, rs,
        "Here are some " ++ pyLower mealType ++
          " meal ideas based on your ingredients:"⟩

/-- One conversation turn, as the dict appended on lines 111-115. -/
structure Turn where
  timestamp : String
  user : String
  bot : String

/-- `add_to_memory` (lines 106-118): append the new turn, then `pop(0)`
once if the length exceeds 10. -/
def add_to_memory (history : List Turn) (t : Turn) : List Turn :=
  let h := history ++ [t]
  if h.length > 10 then h.drop 1 else h

/-- `display_memory` (lines 120-128) iterates `reversed(history)`: the
sequence of turns in the order they are shown, latest first. -/
def display_memory (history : List Turn) : List Turn :=
  history.reverse

/-- One `"You: ...\nBot: ..."` line of the chat context (line 181). -/
def contextLine (c : Turn) : String :=
  "You: " ++ c.user ++ "\nBot: " ++ c.bot

/-- The chat context built on lines 180-182:
`"\n".join([f"You: \x7bchat.user\x7d\nBot: \x7bchat.bot\x7d" for chat in history])`. -/
def contextOf (history : List Turn) : String :=
  String.intercalate "\n" (List.map contextLine history)

/-- A recipe record as the specification's data model describes it. -/
structure Recipe where
  id : Int
  title : String
  image_url : String
  source_url : String
  ingredients : List String

/-- A dietary policy as the specification's data model describes it. -/
structure DietaryPolicy where
  forbidden_terms : List String
  required_any_of : List String

/-- Modelled from the spec: `isCompliant(recipe, policy)` is absent from
`src/` (the code has no dietary-policy filter).  Per the spec: a recipe
with no ingredient data is non-compliant; lower-case each ingredient name;
reject when any forbidden term occurs as a substring of any ingredient
name (case-insensitively); when `required_any_of` is non-empty, some
ingredient name must contain one of those terms as a substring. -/
def isCompliant (r : Recipe) (p : DietaryPolicy) : Bool :=
  if List.isEmpty r.ingredients then
    false
  else if r.ingredients.any (fun ing =>
      p.forbidden_terms.any (fun t => strIn (pyLower t) (pyLower ing))) then
    false
  else if List.isEmpty p.required_any_of then
    true
  else
    r.ingredients.any (fun ing =>
      p.required_any_of.any (fun t => strIn (pyLower t) (pyLower ing)))

/-- Modelled from the spec: `filterCompliant(recipes, policy)` is absent
from `src/`.  Per the spec it walks the input in order and keeps exactly
the recipes on which `isCompliant` holds. -/
def filterCompliant (rs : List Recipe) (p : DietaryPolicy) : List Recipe :=
  match rs with
  | [] => []
  | r :: rest =>
      if isCompliant r p then r :: filterCompliant rest p
      else filterCompliant rest p

/-- Outcome of the random-pick variant described by the spec. -/
inductive PickResult where
  | found (r : Recipe)
  | notFound

/-- Modelled from the spec: the bounded retry loop of
`pickRandomCompliant`; the pair also returns the number of calls made to
the source.  `attempt` indexes the next call so the source may answer
differently per call. -/
def pickAux (source : Nat → Option Recipe) (p : DietaryPolicy) :
    Nat → Nat → PickResult × Nat
  | 0, attempt => (.notFound, attempt)
  | remaining + 1, attempt =>
      match source attempt with
      | none => pickAux source p remaining (attempt + 1)
      | some r =>
          if isCompliant r p then (.found r, attempt + 1)
          else pickAux source p remaining (attempt + 1)

/-- Modelled from the spec: `pickRandomCompliant(source, policy,
maxAttempts)` is absent from `src/`.  It requests one random recipe at a
time, up to `maxAttempts` times, returning the first compliant one or
`NotFound`.  The second component counts the calls made to the source. -/
def pickRandomCompliant (source : Nat → Option Recipe) (p : DietaryPolicy)
    (maxAttempts : Nat) : PickResult × Nat :=
  pickAux source p maxAttempts 0

/-! ## Helper lemmas -/

theorem charsContain_nil (l : List Char) : charsContain [] l = true := by
  cases l with
  | nil => rfl
  | cons c rest => simp [charsContain, List.isPrefixOf]

theorem strIn_empty_left (s : String) : strIn "" s = true :=
  charsContain_nil s.toList

theorem pyLower_empty : pyLower "" = "" := rfl

theorem filterCompliant_eq_filter (rs : List Recipe) (p : DietaryPolicy) :
    filterCompliant rs p = List.filter (fun r => isCompliant r p) rs := by
  induction rs with
  | nil => rfl
  | cons r rest ih =>
      by_cases hc : isCompliant r p <;>
        simp [filterCompliant, List.filter_cons, hc, ih]

/-! ## Claim theorems -/

/-- C1: for every recipe and dietary policy, `isCompliant` returns `false`
whenever some ingredient name of the recipe contains some forbidden term of
the policy as a substring, comparing both strings lower-cased (so the case
of either string is irrelevant). -/
theorem c1_forbidden_term_rejects (r : Recipe) (p : DietaryPolicy)
    (ing t : String) (hing : ing ∈ r.ingredients)
    (ht : t ∈ p.forbidden_terms)
    (hsub : strIn (pyLower t) (pyLower ing) = true) :
    isCompliant r p = false := by
  have hforb : r.ingredients.any (fun ing =>
      p.forbidden_terms.any (fun t => strIn (pyLower t) (pyLower ing))) = true :=
    List.any_eq_true.mpr ⟨ing, hing, List.any_eq_true.mpr ⟨t, ht, hsub⟩⟩
  by_cases he : List.isEmpty r.ingredients
  · simp [isCompliant, he]
  · simp [isCompliant, he, hforb]

/-- Witness for C1 at a concrete mixed-case recipe and policy. -/
theorem c1_forbidden_term_rejects_witness :
    "Bacon Bits" ∈ (Recipe.mk 1 "t" "img" "url" ["Bacon Bits"]).ingredients
    ∧ "BACON" ∈ (DietaryPolicy.mk ["BACON"] []).forbidden_terms
    ∧ strIn (pyLower "BACON") (pyLower "Bacon Bits") = true
    ∧ isCompliant (Recipe.mk 1 "t" "img" "url" ["Bacon Bits"])
        (DietaryPolicy.mk ["BACON"] []) = false :=
  ⟨by decide, by decide, by decide,
    c1_forbidden_term_rejects _ _ "Bacon Bits" "BACON"
      (by decide) (by decide) (by decide)⟩

/-- C3: a recipe with an empty ingredient list is non-compliant under every
policy: absence of ingredient information never counts as a pass. -/
theorem c3_empty_ingredients_noncompliant (r : Recipe) (p : DietaryPolicy)
    (h : r.ingredients = []) : isCompliant r p = false := by
  simp [isCompliant, h]

/-- Witness for C3 at a concrete ingredient-less recipe. -/
theorem c3_empty_ingredients_noncompliant_witness :
    (Recipe.mk 7 "t" "img" "url" []).ingredients = ([] : List String)
    ∧ isCompliant (Recipe.mk 7 "t" "img" "url" [])
        (DietaryPolicy.mk ["pork"] ["chicken"]) = false :=
  ⟨rfl, c3_empty_ingredients_noncompliant _ _ rfl⟩

/-- C4: `filterCompliant` returns exactly the subsequence of its input on
which `isCompliant` holds: it equals `List.filter isCompliant`, it is a
sublist of the input (same relative order), and every returned element
satisfies `isCompliant`. -/
theorem c4_filterCompliant_exact (rs : List Recipe) (p : DietaryPolicy) :
    filterCompliant rs p = List.filter (fun r => isCompliant r p) rs
    ∧ List.Sublist (filterCompliant rs p) rs
    ∧ List.all (filterCompliant rs p) (fun r => isCompliant r p) = true := by
  refine ⟨filterCompliant_eq_filter rs p, ?_, ?_⟩
  · rw [filterCompliant_eq_filter]
    exact List.filter_sublist rs
  · rw [filterCompliant_eq_filter]
    exact List.all_eq_true.mpr (fun x hx => (List.mem_filter.mp hx).2)

/-- C8: when the recipe search call fails, `get_meal_ideas` returns the
error value instead of raising, and its caller renders no recipes, shows
the propagated error message, and answers with the apology line. -/
theorem c8_search_error_handled (e : String) (fetch : Int → Option PyDict)
    (ingredients mealType : String) :
    (renderMealResult mealType
        (get_meal_ideas (Except.error e) fetch ingredients)).recipesShown = []
    ∧ (renderMealResult mealType
        (get_meal_ideas (Except.error e) fetch ingredients)).errorShown
        = some ("Spoonacular Error: " ++ e)
    ∧ (renderMealResult mealType
        (get_meal_ideas (Except.error e) fetch ingredients)).botResponse
        = "Sorry, I couldn\x27t fetch meal ideas right now. Try again later!" :=
  ⟨rfl, rfl, rfl⟩

/-- C2 counterexample: a successfully fetched but empty detail record
(`details = \x7b\x7d`, which is falsy in Python) together with the empty
query refutes the claimed equivalence: the substring condition holds, yet
the guard rejects the record, and the pipeline keeps nothing. -/
theorem c2_counterexample :
    keepDetails "" (some ([] : PyDict)) = false
    ∧ strIn (pyLower "") (pyLower (strOfExtendedIngredients ([] : PyDict))) = true
    ∧ detailedRecipes (fun _ => some ([] : PyDict)) "" [7] = [] :=
  ⟨rfl, rfl, rfl⟩

/-- C2 (amended): for a successfully fetched detail record, the recipe is
kept iff the record is a non-empty dict and the lower-cased query is a
substring of the lower-cased Python string rendering of its
`extendedIngredients` value; consequently the empty query accepts every
non-empty record, and a query matching a dictionary key (here `"name"`)
accepts a recipe whose sole ingredient name does not contain it. -/
theorem c2_keep_iff_query_substring (ingredients : String) (d : PyDict) :
    (keepDetails ingredients (some d) = true ↔
      d ≠ [] ∧ strIn (pyLower ingredients)
        (pyLower (strOfExtendedIngredients d)) = true)
    ∧ (d ≠ [] → keepDetails "" (some d) = true)
    ∧ keepDetails "name"
        (some [("extendedIngredients",
          PyVal.plist [PyVal.pdict [("name", PyVal.pstr "beef")]])]) = true
    ∧ strIn "name" "beef" = false := by
  refine ⟨?_, ?_, by decide, by decide⟩
  · simp [keepDetails, dictTruthy, Bool.and_eq_true, List.isEmpty_iff]
  · intro hd
    simp [keepDetails, dictTruthy, List.isEmpty_iff, hd, pyLower_empty,
      strIn_empty_left]

/-- Witness for C2 (amended) at a concrete non-empty record and the empty
query. -/
theorem c2_keep_iff_query_substring_witness :
    ([("a", PyVal.pstr "b")] : PyDict) ≠ []
    ∧ keepDetails "" (some ([("a", PyVal.pstr "b")] : PyDict)) = true :=
  ⟨by simp, (c2_keep_iff_query_substring "" [("a", PyVal.pstr "b")]).2.1 (by simp)⟩

/-- C9: a failed detail fetch for one summary id never aborts the batch:
the loop of `get_meal_ideas` produces exactly what it produces on the
input with that id removed, so the other records survive unchanged. -/
theorem c9_failed_fetch_skipped (fetch : Int → Option PyDict)
    (ingredients : String) (pre post : List Int) (bad : Int)
    (hbad : fetch bad = none) :
    detailedRecipes fetch ingredients (pre ++ bad :: post)
      = detailedRecipes fetch ingredients (pre ++ post) := by
  induction pre with
  | nil =>
      simp only [List.nil_append, detailedRecipes, hbad]
  | cons x xs ih =>
      cases hfx : fetch x with
      | none => simp [detailedRecipes, hfx, ih]
      | some d => simp [detailedRecipes, hfx, ih]

/-- Witness for C9: with a fetch function failing exactly at id 0, the
batch over `[1, 0, 2]` equals the batch over `[1, 2]`. -/
theorem c9_failed_fetch_skipped_witness :
    (fun i : Int => if i = 0 then none else
      some ([("extendedIngredients", PyVal.pstr "beef")] : PyDict)) 0 = none
    ∧ detailedRecipes
        (fun i : Int => if i = 0 then none else
          some ([("extendedIngredients", PyVal.pstr "beef")] : PyDict))
        "beef" ([1] ++ 0 :: [2])
      = detailedRecipes
        (fun i : Int => if i = 0 then none else
          some ([("extendedIngredients", PyVal.pstr "beef")] : PyDict))
        "beef" ([1] ++ [2]) :=
  ⟨rfl, c9_failed_fetch_skipped _ "beef" [1] [2] 0 rfl⟩

theorem add_to_memory_eq (history : List Turn) (t : Turn) :
    add_to_memory history t =
      if (history ++ [t]).length > 10 then (history ++ [t]).drop 1
      else history ++ [t] := rfl

theorem foldl_add_to_memory (ts : List Turn) :
    ∀ h : List Turn, h.length ≤ 10 →
      List.foldl add_to_memory h ts
        = List.drop (h.length + ts.length - 10) (h ++ ts) := by
  induction ts with
  | nil =>
      intro h hh
      have h0 : h.length - 10 = 0 := by omega
      rw [List.foldl_nil, List.append_nil, List.length_nil, Nat.add_zero, h0,
        List.drop_zero]
  | cons t rest ih =>
      intro h hh
      rw [List.foldl_cons]
      by_cases hl : (h ++ [t]).length > 10
      · have hlen : h.length = 10 := by
          simp [List.length_append] at hl; omega
        have ha : add_to_memory h t = (h ++ [t]).drop 1 := by
          rw [add_to_memory_eq, if_pos hl]
        have hlen2 : ((h ++ [t]).drop 1).length = 10 := by
          simp [List.length_drop, List.length_append, hlen]
        rw [ha, ih _ (le_of_eq hlen2)]
        have e1 : (h ++ t :: rest).drop 1 = (h ++ [t]).drop 1 ++ rest := by
          have hsplit : h ++ t :: rest = (h ++ [t]) ++ rest := by simp
          rw [hsplit, List.drop_append_of_le_length (by simp)]
        rw [hlen2, ← e1, List.drop_drop]
        have e2 : 1 + (10 + rest.length - 10) = h.length + (t :: rest).length - 10 := by
          simp [hlen, List.length_cons]; omega
        rw [e2]
      · have ha : add_to_memory h t = h ++ [t] := by
          rw [add_to_memory_eq, if_neg hl]
        have hlen2 : (h ++ [t]).length ≤ 10 := by
          simp [List.length_append] at hl ⊢; omega
        rw [ha, ih _ hlen2]
        have e : (h ++ [t]).length + rest.length - 10
            = h.length + (t :: rest).length - 10 := by
          simp [List.length_append, List.length_cons]; omega
        rw [e]
        congr 1
        simp

theorem c5_memory_fifo (ts : List Turn) :
    List.foldl add_to_memory [] ts = List.drop (ts.length - 10) ts
    ∧ (List.foldl add_to_memory [] ts).length = min ts.length 10
    ∧ (List.foldl add_to_memory [] ts).length ≤ 10 := by
  have h := foldl_add_to_memory ts [] (by simp)
  simp only [List.nil_append, List.length_nil, Nat.zero_add] at h
  refine ⟨h, ?_, ?_⟩
  · rw [h, List.length_drop]; omega
  · rw [h, List.length_drop]; omega

theorem c10_append_evicts_at_most_one (history : List Turn) (t : Turn)
    (h : 11 ≤ history.length) :
    (add_to_memory history t).length = history.length := by
  rw [add_to_memory_eq, if_pos]
  · simp [List.length_drop, List.length_append]
  · simp [List.length_append]; omega

theorem c10_witness :
    11 ≤ (List.replicate 11 (Turn.mk "ts" "u" "b")).length
    ∧ (add_to_memory (List.replicate 11 (Turn.mk "ts" "u" "b"))
        (Turn.mk "ts2" "u2" "b2")).length
        = (List.replicate 11 (Turn.mk "ts" "u" "b")).length :=
  ⟨by simp, c10_append_evicts_at_most_one _ _ (by simp)⟩

theorem c6_display_reverse_context_chrono (history : List Turn) :
    (display_memory history).reverse = history
    ∧ contextOf history
        = String.intercalate "\n"
            (List.map contextLine (display_memory history).reverse)
    ∧ (∀ R : Turn → Turn → Prop, List.Pairwise R history →
        List.Pairwise (fun a b => R b a) (display_memory history)) := by
  refine ⟨?_, ?_, ?_⟩
  · simp [display_memory]
  · simp [display_memory, contextOf]
  · intro R hR
    unfold display_memory
    exact List.pairwise_reverse.mpr hR

theorem c6_witness :
    List.Pairwise (fun a b : Turn => a.timestamp ≠ b.timestamp)
      [Turn.mk "2025-01-01" "u1" "b1", Turn.mk "2025-01-02" "u2" "b2"]
    ∧ List.Pairwise (fun a b : Turn => b.timestamp ≠ a.timestamp)
        (display_memory
          [Turn.mk "2025-01-01" "u1" "b1", Turn.mk "2025-01-02" "u2" "b2"]) :=
  ⟨by decide,
    (c6_display_reverse_context_chrono _).2.2 _ (by decide)⟩

theorem pickAux_calls_le (source : Nat → Option Recipe) (p : DietaryPolicy) :
    ∀ remaining attempt : Nat,
      (pickAux source p remaining attempt).2 ≤ attempt + remaining := by
  intro remaining
  induction remaining with
  | zero => intro attempt; simp [pickAux]
  | succ k ih =>
      intro attempt
      rw [pickAux]
      cases source attempt with
      | none =>
          calc (pickAux source p k (attempt + 1)).2 ≤ attempt + 1 + k := ih _
            _ = attempt + (k + 1) := by omega
      | some r =>
          by_cases hc : isCompliant r p
          · simp [hc]
          · simp only [hc, if_neg]
            calc (pickAux source p k (attempt + 1)).2 ≤ attempt + 1 + k := ih _
              _ = attempt + (k + 1) := by omega

theorem pickAux_all_noncompliant (source : Nat → Option Recipe)
    (p : DietaryPolicy)
    (hall : ∀ i r, source i = some r → isCompliant r p = false) :
    ∀ remaining attempt : Nat,
      (pickAux source p remaining attempt).1 = PickResult.notFound := by
  intro remaining
  induction remaining with
  | zero => intro attempt; rfl
  | succ k ih =>
      intro attempt
      rw [pickAux]
      cases hs : source attempt with
      | none => exact ih _
      | some r => simp [hall attempt r hs, ih]

/-- C7: `pickRandomCompliant` makes at most `maxAttempts` calls to the
recipe source, and when every recipe the source returns is non-compliant
it terminates with `notFound` instead of looping. -/
theorem c7_pick_bounded_terminates (source : Nat → Option Recipe)
    (p : DietaryPolicy) (maxAttempts : Nat) :
    (pickRandomCompliant source p maxAttempts).2 ≤ maxAttempts
    ∧ ((∀ i r, source i = some r → isCompliant r p = false) →
        (pickRandomCompliant source p maxAttempts).1 = PickResult.notFound) := by
  constructor
  · have h := pickAux_calls_le source p maxAttempts 0
    simpa using h
  · intro hall
    exact pickAux_all_noncompliant source p hall maxAttempts 0

/-- Witness for C7: a source that always returns a pork recipe under a
pork-forbidding policy yields `notFound` within 3 attempts. -/
theorem c7_pick_bounded_terminates_witness :
    (∀ i r, (fun _ : Nat => some (Recipe.mk 1 "t" "img" "url" ["pork belly"])) i
        = some r → isCompliant r (DietaryPolicy.mk ["pork"] []) = false)
    ∧ (pickRandomCompliant
        (fun _ : Nat => some (Recipe.mk 1 "t" "img" "url" ["pork belly"]))
        (DietaryPolicy.mk ["pork"] []) 3).1 = PickResult.notFound := by
  refine ⟨?_, (c7_pick_bounded_terminates _ _ 3).2 ?_⟩ <;>
    · intro i r hir
      cases hir
      decide
